import Mathlib

/-!
Verification development for a small ZIP container codec written in TypeScript.

The repository has two source files:
* an unnamed file defining `ZipArchive` (parse path `fromBlob`, write path `toBlob`,
  the record readers `readLocal` / `readCD` / `readEOCDR` / `findEOCDR`, the header
  generators `generateLocalHeader` / `generateCentralHeader` / `generateEOCDR`, and a
  companion `ZipEntry` class holding a backing blob plus a `compressed` flag), and
* `src/ZipEntry.ts`, a richer `ZipEntry` class (crc, sizes, compression code, DOS
  timestamp) with `generate_local`, `get_blob` and a decompression cache.

Byte buffers (`ArrayBuffer` / `Blob` / `Uint8Array`) are modelled as `List Nat`
with each byte below 256; strings (filenames, comments) are represented by their
UTF-8 byte sequences, so the external `encode_utf8_string` / `TextDecoder`
collaborators become the identity on byte lists.  `DataView` reads and writes are
little-endian and throw a `RangeError` when out of bounds, which fallible code
models with `Except`.  A JavaScript statement that references an undeclared
variable is modelled as throwing a `ReferenceError` naming that variable.
-/

/-- The runtime failures the TypeScript code can raise. -/
inductive JsErr where
  /-- `ReferenceError`: a statement read a variable that is not declared anywhere. -/
  | referenceError : String → JsErr
  /-- `RangeError`: an out-of-bounds `DataView` / `Uint8Array` access. -/
  | rangeError : JsErr
  /-- `throw new Error(msg)`. -/
  | error : String → JsErr
deriving Repr, DecidableEq

deriving instance DecidableEq for Except

def HEADER_EOCDR : Nat := 0x06054b50
def HEADER_CD : Nat := 0x02014b50
def HEADER_LOCAL : Nat := 0x04034b50

/-- Little-endian 16-bit read of two bytes (unchecked; used via `getUint16`). -/
def u16At (b : List Nat) (p : Nat) : Nat :=
  b.getD p 0 + 256 * b.getD (p + 1) 0

/-- Little-endian 32-bit read of four bytes (unchecked; used via `getUint32`). -/
def u32At (b : List Nat) (p : Nat) : Nat :=
  b.getD p 0 + 256 * b.getD (p + 1) 0 + 65536 * b.getD (p + 2) 0 +
    16777216 * b.getD (p + 3) 0

/-- `DataView.getUint16(p, true)`: throws a `RangeError` past the end of the buffer. -/
def getUint16 (b : List Nat) (p : Nat) : Except JsErr Nat :=
  if p + 2 ≤ b.length then .ok (u16At b p) else .error .rangeError

/-- `DataView.getUint32(p, true)`: throws a `RangeError` past the end of the buffer. -/
def getUint32 (b : List Nat) (p : Nat) : Except JsErr Nat :=
  if p + 4 ≤ b.length then .ok (u32At b p) else .error .rangeError

/-- `decodeString(buffer, position, length)`: `new Uint8Array(buffer, position, length)`
throws a `RangeError` when the range leaves the buffer; `TextDecoder.decode` is the
identity on our byte-sequence representation of strings. -/
def decodeString (b : List Nat) (position length : Nat) : Except JsErr (List Nat) :=
  if position + length ≤ b.length then .ok ((b.drop position).take length)
  else .error .rangeError

/-- Overwrite bytes of `b` starting at index `p` with `vs` (helper for the setters). -/
def setBytes : List Nat → Nat → List Nat → List Nat
  | b, _, [] => b
  | [], _, _ => []
  | _ :: rest, 0, v :: vs => v :: setBytes rest 0 vs
  | x :: rest, p + 1, vs => x :: setBytes rest p vs

/-- `DataView.setUint16(p, v, true)`: little-endian, value taken mod 2^16,
`RangeError` when the two bytes do not fit. -/
def setUint16 (b : List Nat) (p v : Nat) : Except JsErr (List Nat) :=
  if p + 2 ≤ b.length then .ok (setBytes b p [v % 256, v / 256 % 256])
  else .error .rangeError

/-- `DataView.setUint32(p, v, true)`: little-endian, value taken mod 2^32,
`RangeError` when the four bytes do not fit. -/
def setUint32 (b : List Nat) (p v : Nat) : Except JsErr (List Nat) :=
  if p + 4 ≤ b.length then
    .ok (setBytes b p [v % 256, v / 256 % 256, v / 65536 % 256, v / 16777216 % 256])
  else .error .rangeError

/-- `Uint8Array.prototype.set(arr, offset)`: `RangeError` when `arr` does not fit. -/
def uintSet (b : List Nat) (arr : List Nat) (offset : Nat) : Except JsErr (List Nat) :=
  if offset + arr.length ≤ b.length then .ok (setBytes b offset arr)
  else .error .rangeError

/-- `Blob.slice(s, e)`: clamping slice, never throws. -/
def listSlice (b : List Nat) (s e : Nat) : List Nat :=
  (b.take e).drop s

/-- `Map.prototype.get`. -/
def mapGet {α β : Type} [DecidableEq α] : List (α × β) → α → Option β
  | [], _ => none
  | (k, v) :: rest, key => if k = key then some v else mapGet rest key

/-- `Map.prototype.set`: replaces in place when the key exists, appends otherwise
(JS `Map` preserves insertion order). -/
def mapSet {α β : Type} [DecidableEq α] : List (α × β) → α → β → List (α × β)
  | [], key, val => [(key, val)]
  | (k, v) :: rest, key, val =>
    if k = key then (key, val) :: rest else (k, v) :: mapSet rest key val

/-! ## The unnamed archive file: record readers -/

/-- The object literal returned by `ZipArchive.readLocal`. -/
structure LocalRec where
  signature : Nat
  version : Nat
  flag : Nat
  compression : Nat
  time : Nat
  date : Nat
  crc : Nat
  compressedSize : Nat
  uncompressedSize : Nat
  nameLength : Nat
  fieldLength : Nat
  fileName : List Nat
  field : List Nat
  dataLocation : Nat
deriving Repr, DecidableEq

/-- `ZipArchive.readLocal(view, position)`: 30-byte fixed prefix at the documented
offsets, then the filename and extra field; `dataLocation` is the offset at which the
data payload starts. -/
def readLocal (b : List Nat) (position : Nat) : Except JsErr LocalRec := do
  let offset := position
  let signature ← getUint32 b offset
  let offset := offset + 4
  let version ← getUint16 b offset
  let offset := offset + 2
  let flag ← getUint16 b offset
  let offset := offset + 2
  let compression ← getUint16 b offset
  let offset := offset + 2
  let time ← getUint16 b offset
  let offset := offset + 2
  let date ← getUint16 b offset
  let offset := offset + 2
  let crc ← getUint32 b offset
  let offset := offset + 4
  let compressedSize ← getUint32 b offset
  let offset := offset + 4
  let uncompressedSize ← getUint32 b offset
  let offset := offset + 4
  let nameLength ← getUint16 b offset
  let offset := offset + 2
  let fieldLength ← getUint16 b offset
  let offset := offset + 2
  let fileName ← decodeString b offset nameLength
  let offset := offset + nameLength
  let field ← decodeString b offset fieldLength
  let offset := offset + fieldLength
  let dataLocation := offset
  return { signature, version, flag, compression, time, date, crc, compressedSize,
           uncompressedSize, nameLength, fieldLength, fileName, field, dataLocation }

/-- The object literal returned by `ZipArchive.readCD`. -/
structure CDRec where
  signature : Nat
  version : Nat
  minVersion : Nat
  flag : Nat
  compression : Nat
  time : Nat
  date : Nat
  crc : Nat
  compressedSize : Nat
  uncompressedSize : Nat
  nameLength : Nat
  fieldLength : Nat
  commentLength : Nat
  disk : Nat
  internal : Nat
  external : Nat
  localPosition : Nat
  fileName : List Nat
  field : List Nat
  comment : List Nat
  size : Nat
deriving Repr, DecidableEq

/-- `ZipArchive.readCD(view, position)`: 46-byte fixed prefix, then filename, extra
field and comment; `size` is the total number of bytes the record occupies. -/
def readCD (b : List Nat) (position : Nat) : Except JsErr CDRec := do
  let offset := position
  let signature ← getUint32 b offset
  let offset := offset + 4
  let version ← getUint16 b offset
  let offset := offset + 2
  let minVersion ← getUint16 b offset
  let offset := offset + 2
  let flag ← getUint16 b offset
  let offset := offset + 2
  let compression ← getUint16 b offset
  let offset := offset + 2
  let time ← getUint16 b offset
  let offset := offset + 2
  let date ← getUint16 b offset
  let offset := offset + 2
  let crc ← getUint32 b offset
  let offset := offset + 4
  let compressedSize ← getUint32 b offset
  let offset := offset + 4
  let uncompressedSize ← getUint32 b offset
  let offset := offset + 4
  let nameLength ← getUint16 b offset
  let offset := offset + 2
  let fieldLength ← getUint16 b offset
  let offset := offset + 2
  let commentLength ← getUint16 b offset
  let offset := offset + 2
  let disk ← getUint16 b offset
  let offset := offset + 2
  let internal ← getUint16 b offset
  let offset := offset + 2
  let external ← getUint32 b offset
  let offset := offset + 4
  let localPosition ← getUint32 b offset
  let offset := offset + 4
  let fileName ← decodeString b offset nameLength
  let offset := offset + nameLength
  let field ← decodeString b offset fieldLength
  let offset := offset + fieldLength
  let comment ← decodeString b offset commentLength
  let offset := offset + commentLength
  let size := offset - position
  return { signature, version, minVersion, flag, compression, time, date, crc,
           compressedSize, uncompressedSize, nameLength, fieldLength, commentLength,
           disk, internal, external, localPosition, fileName, field, comment, size }

/-- The object literal returned by `ZipArchive.readEOCDR`. -/
structure EOCDRRec where
  signature : Nat
  disk : Nat
  startDisk : Nat
  diskEntries : Nat
  totalEntries : Nat
  CDLength : Nat
  CDOffset : Nat
  commentLength : Nat
  comment : List Nat
deriving Repr, DecidableEq

/-- `ZipArchive.readEOCDR(view, position)`: 22-byte fixed prefix plus trailing comment. -/
def readEOCDR (b : List Nat) (position : Nat) : Except JsErr EOCDRRec := do
  let offset := position
  let signature ← getUint32 b offset
  let offset := offset + 4
  let disk ← getUint16 b offset
  let offset := offset + 2
  let startDisk ← getUint16 b offset
  let offset := offset + 2
  let diskEntries ← getUint16 b offset
  let offset := offset + 2
  let totalEntries ← getUint16 b offset
  let offset := offset + 2
  let CDLength ← getUint32 b offset
  let offset := offset + 4
  let CDOffset ← getUint32 b offset
  let offset := offset + 4
  let commentLength ← getUint16 b offset
  let offset := offset + 2
  let comment ← decodeString b offset commentLength
  return { signature, disk, startDisk, diskEntries, totalEntries, CDLength, CDOffset,
           commentLength, comment }

/-- The body of `ZipArchive.findEOCDR`'s `while (position--)` loop, entered with the
value `position` held before the decrement: `0` is falsy and ends the loop with the
no-EOCDR error; otherwise the magic is probed at `position - 1`. -/
def findEOCDRLoop (b : List Nat) : Nat → Except JsErr Nat
  | 0 => .error (.error ("No end of central directory record found"))
  | p + 1 =>
    match getUint32 b p with
    | .error e => .error e
    | .ok v => if v = HEADER_EOCDR then .ok p else findEOCDRLoop b p

/-- `ZipArchive.findEOCDR(view)`: starts with `position = length - 4` and probes
`position - 1`, `position - 2`, ... down to `0`.  When the buffer is shorter than
4 bytes, `length - 4` is negative, the decrement test is still truthy, and the first
`getUint32` probe at a negative index throws a `RangeError`. -/
def findEOCDR (b : List Nat) : Except JsErr Nat :=
  if b.length < 4 then .error .rangeError
  else findEOCDRLoop b (b.length - 4)

/-! ## The unnamed archive file: `ZipEntry` companion class and the archive index -/

/-- The `ZipEntry` class defined next to `ZipArchive` in the unnamed source file:
it records only the backing blob and a `compressed` flag. -/
structure ZipEntryArc where
  blob : List Nat
  compressed : Bool
deriving Repr, DecidableEq

/-- `ZipArchive.verifyPath`: an explicit stub in the source (`// TODO verify file paths`). -/
def verifyPath (_name : List Nat) : Unit := ()

/-- `ZipArchive.has(name)`: the body only calls `verifyPath` and falls off the end,
so the call evaluates to JavaScript `undefined` (here `none`) for every name —
it never produces a boolean. -/
def ZipArchive.has (_entries : List (List Nat × ZipEntryArc)) (name : List Nat) :
    Option Bool :=
  let _ := verifyPath name
  none

/-- `ZipArchive.get(name)`: key lookup, `undefined` (here `none`) when absent. -/
def ZipArchive.get (entries : List (List Nat × ZipEntryArc)) (name : List Nat) :
    Option ZipEntryArc :=
  let _ := verifyPath name
  mapGet entries name

/-- `ZipArchive.set(name, file)`: inserts a fresh uncompressed entry. -/
def ZipArchive.set (entries : List (List Nat × ZipEntryArc)) (name : List Nat)
    (file : List Nat) : List (List Nat × ZipEntryArc) :=
  let _ := verifyPath name
  mapSet entries name ⟨file, false⟩

/-- `ZipArchive.setCompressed(name, file)`: inserts a fresh compressed entry. -/
def ZipArchive.setCompressed (entries : List (List Nat × ZipEntryArc)) (name : List Nat)
    (file : List Nat) : List (List Nat × ZipEntryArc) :=
  mapSet entries name ⟨file, true⟩

/-! ## The unnamed archive file: parse path (`fromBlob`) -/

/-- The `while (position < length)` loop of `ZipArchive.fromBlob`.  The first
argument is fuel: every iteration advances `position` by `entry.size ≥ 46`, so with
`length + 1` fuel the `0` case is never reached on any input. -/
def fromBlobLoop (blob : List Nat) (offset length : Nat) :
    Nat → Nat → List (List Nat × ZipEntryArc) →
    Except JsErr (List (List Nat × ZipEntryArc))
  | 0, _, _ => .error (.error ("FUEL"))
  | fuel + 1, position, entries =>
    if position < length then
      match getUint32 blob (position + offset) with
      | .error e => .error e
      | .ok SIG =>
        if SIG = HEADER_CD then
          match readCD blob (position + offset) with
          | .error e => .error e
          | .ok entry =>
            if entry.fileName.getLast? = some 47 then
              -- folder: `entry.fileName.endsWith("/")`; nothing is inserted
              fromBlobLoop blob offset length fuel (position + entry.size) entries
            else
              match readLocal blob entry.localPosition with
              | .error e => .error e
              | .ok lrec =>
                let subblob :=
                  listSlice blob lrec.dataLocation (lrec.dataLocation + lrec.compressedSize)
                let isCompressed := lrec.compression == 8
                if isCompressed then
                  fromBlobLoop blob offset length fuel (position + entry.size)
                    (ZipArchive.setCompressed entries lrec.fileName subblob)
                else
                  fromBlobLoop blob offset length fuel (position + entry.size)
                    (ZipArchive.set entries lrec.fileName subblob)
        else .error (.error ("UNKNOWN"))
    else .ok entries

/-- `ZipArchive.fromBlob(blob)`: locate and read the EOCDR, then walk the central
directory region `[CDOffset, CDOffset + CDLength)`; for each non-folder record, read
the Local header at the record's `localPosition` and insert an entry holding the data
slice `[dataLocation, dataLocation + local.compressedSize)`. -/
def fromBlob (blob : List Nat) : Except JsErr (List (List Nat × ZipEntryArc)) := do
  let buffer := blob
  let EOCDRPosition ← findEOCDR buffer
  let eocdr ← readEOCDR buffer EOCDRPosition
  fromBlobLoop blob eocdr.CDOffset eocdr.CDLength (eocdr.CDLength + 1) 0 []

/-! ## The unnamed archive file: write path (`toBlob`) -/

/-- `ZipEntry.generateLocalHeader(filename)` as called by `toBlob` (no extra field is
ever passed): allocates `30 + N` zeroed bytes and writes signature, zero version, zero
flag, the compression method (`8` or `0`), zero time/date/CRC/sizes (all `TODO` in the
source), the name length, zero extra length, and the filename. -/
def generateLocalHeader (compressed : Bool) (filename : List Nat) :
    Except JsErr (List Nat) := do
  let encodedFilename := filename
  let len := 30 + encodedFilename.length + 0
  let b := List.replicate len 0
  let b ← setUint32 b 0 HEADER_LOCAL
  let b ← setUint16 b 4 0
  let b ← setUint16 b 6 0
  let b ← setUint16 b 8 (if compressed then 8 else 0)
  let b ← setUint16 b 10 0
  let b ← setUint16 b 12 0
  let b ← setUint32 b 14 0
  let b ← setUint32 b 18 0
  let b ← setUint32 b 22 0
  let b ← setUint16 b 26 encodedFilename.length
  let b ← setUint16 b 28 0
  uintSet b encodedFilename 30

/-- `ZipEntry.generateCentralHeader(filename)` as called by `toBlob` (no extra field,
no comment).  The source allocates only `30 + N` bytes for a 46-byte fixed prefix, so
for short names one of the writes beyond offset 30 throws a `RangeError`; when every
write fits (N ≥ 12), the statement `view.setUint32(offset, localPosition, true)`
references `localPosition`, which is declared nowhere in the file, and throws a
`ReferenceError`.  `toBlob` also never passes the local offset in (`// TODO pass in
location`). -/
def generateCentralHeader (compressed : Bool) (filename : List Nat) :
    Except JsErr (List Nat) := do
  let encodedFilename := filename
  let len := 30 + encodedFilename.length + 0 + 0
  let b := List.replicate len 0
  let b ← setUint32 b 0 HEADER_CD
  let b ← setUint16 b 4 0
  let b ← setUint16 b 6 0
  let b ← setUint16 b 8 0
  let b ← setUint16 b 10 (if compressed then 8 else 0)
  let b ← setUint16 b 12 0
  let b ← setUint16 b 14 0
  let b ← setUint32 b 16 0
  let b ← setUint32 b 20 0
  let b ← setUint32 b 24 0
  let b ← setUint16 b 28 encodedFilename.length
  let b ← setUint16 b 30 0
  let b ← setUint16 b 32 0
  let b ← setUint16 b 34 0
  let b ← setUint16 b 36 0
  let b ← setUint32 b 38 0
  let _ := b
  .error (.referenceError ("localPosition"))

/-- `ZipArchive.generateEOCDR(CDOffset, records)`: the body is a copy of the EOCDR
*reader*; its first statement `let offset = position;` references `position`, which is
not in scope, so every call throws a `ReferenceError` (and the method builds no bytes
at all). -/
def generateEOCDR (_CDOffset _records : Nat) : Except JsErr (List Nat) :=
  .error (.referenceError ("position"))

/-- The `for (const [name, entry] of this.entries)` loop of `ZipArchive.toBlob`:
emits each entry's local header and backing bytes into `parts` while tracking
`offset`, and collects central headers into `directories`. -/
def toBlobLoop : List (List Nat × ZipEntryArc) → Nat → List (List Nat) →
    List (List Nat) → Except JsErr (Nat × List (List Nat) × List (List Nat))
  | [], offset, parts, directories => .ok (offset, parts, directories)
  | (name, entry) :: rest, offset, parts, directories => do
    let location := offset
    let _ := location  -- computed but never passed anywhere (`// TODO pass in location`)
    let loc ← generateLocalHeader entry.compressed name
    let file := entry.blob
    let offset := offset + loc.length + file.length
    let parts := parts ++ [loc, file]
    let cd ← generateCentralHeader entry.compressed name
    toBlobLoop rest offset parts (directories ++ [cd])

/-- `ZipArchive.toBlob()`: runs the entry loop, then appends the central headers to
`parts`, then calls `generateEOCDR` — whose result is never pushed into `parts` in the
source (`return new Blob(parts)` follows directly). -/
def toBlob (entries : List (List Nat × ZipEntryArc)) : Except JsErr (List Nat) := do
  let r ← toBlobLoop entries 0 [] []
  let CDOffset := r.1
  let parts := r.2.1 ++ r.2.2
  let _EOCDR ← generateEOCDR CDOffset r.2.2.length
  return parts.flatten

/-! ## `src/ZipEntry.ts`: the richer `ZipEntry` class -/

/-- A calendar timestamp, the argument of the DOS timestamp codec. -/
structure DateT where
  year : Nat
  month : Nat
  day : Nat
  hour : Nat
  minute : Nat
  second : Nat
deriving Repr, DecidableEq

/-- Modelled from the spec: `dos_time_from_date` lives in `src/dos_time.ts`, which is
not under `src/`.  Per the spec's DOS Timestamp Codec, the date packs
`(year-1980) <<< 9 ||| month <<< 5 ||| day` and the time packs
`hour <<< 11 ||| minute <<< 5 ||| second/2`; the source destructures the result as
`[date, time]`. -/
def dos_time_from_date (d : DateT) : Nat × Nat :=
  (((d.year - 1980) <<< 9) ||| (d.month <<< 5) ||| d.day,
   (d.hour <<< 11) ||| (d.minute <<< 5) ||| (d.second / 2))

def ZIP_VERSION : Nat := 20

/-- Modelled from the spec: `assert` lives in `src/assert.ts`, which is not under
`src/`; an assertion throws its message when the condition is false. -/
def assert (cond : Bool) (msg : String) : Except JsErr Unit :=
  if cond then .ok () else .error (.error msg)

/-- The `ZipEntry` class of `src/ZipEntry.ts`: backing blob, optional extra/comment
bytes, attributes, modification timestamp, and the read-only crc /
uncompressed_size / compression fields set by the constructor.  `compressed_size`
is the derived getter `this.blob.size`, i.e. `e.blob.length` here. -/
structure ZipEntry where
  blob : List Nat
  extra : Option (List Nat)
  comment : Option (List Nat)
  internal_file_attr : Nat
  external_file_attr : Nat
  modified : DateT
  crc : Nat
  uncompressed_size : Nat
  compression : Nat
deriving Repr, DecidableEq

/-- `ZipEntry.decompress()` of `src/ZipEntry.ts`: looks the backing blob up in the
module-level `inflated_entries` WeakMap; on a miss it calls the external `decompress`
collaborator (the parameter `decompressExt`, `src/compression.ts` being outside the
repository) and caches the result.  The cache is passed and returned explicitly;
WeakMap identity keys are represented by the blob's bytes (every distinct compressed
payload is one buffer object in this design). -/
def ZipEntry.decompressCached (decompressExt : List Nat → List Nat)
    (cache : List (List Nat × List Nat)) (e : ZipEntry) :
    List Nat × List (List Nat × List Nat) :=
  match mapGet cache e.blob with
  | some existing => (existing, cache)
  | none =>
    let result := decompressExt e.blob
    (result, mapSet cache e.blob result)

/-- `ZipEntry.get_blob()` of `src/ZipEntry.ts`:

```ts
if (this.compression === 8) return this.decompress();
assert(this.compression !== 0, "Incompatible compression type");
return this.blob;
```

Returns the (possibly decompressed) bytes together with the updated cache. -/
def ZipEntry.get_blob (decompressExt : List Nat → List Nat)
    (cache : List (List Nat × List Nat)) (e : ZipEntry) :
    Except JsErr (List Nat × List (List Nat × List Nat)) :=
  if e.compression = 8 then .ok (ZipEntry.decompressCached decompressExt cache e)
  else do
    let _ ← assert (e.compression != 0) ("Incompatible compression type")
    .ok (e.blob, cache)

/-- `ZipEntry.generate_local(filename)` of `src/ZipEntry.ts`: allocates
`30 + N + M` zeroed bytes and writes the header fields at the hard-coded offsets of
the source — note the writes at 16 / 20 / 24 for crc / compressed size / uncompressed
size, although the layout comment above them documents those fields at 14 / 18 / 22. -/
def ZipEntry.generate_local (e : ZipEntry) (filename : List Nat) :
    Except JsErr (List Nat) := do
  let encoded_filename := filename
  let N := encoded_filename.length
  let M := match e.extra with | some ex => ex.length | none => 0
  let len := 30 + N + M
  let buffer := List.replicate len 0
  let dt := dos_time_from_date e.modified
  let date := dt.1
  let time := dt.2
  let b ← setUint32 buffer 0 HEADER_LOCAL
  let b ← setUint16 b 4 ZIP_VERSION
  let b ← setUint16 b 6 0
  let b ← setUint16 b 8 e.compression
  let b ← setUint16 b 10 time
  let b ← setUint16 b 12 date
  let b ← setUint32 b 16 e.crc
  let b ← setUint32 b 20 e.blob.length
  let b ← setUint32 b 24 e.uncompressed_size
  let b ← setUint16 b 26 encoded_filename.length
  let b ← setUint16 b 28 M
  let b ← uintSet b encoded_filename 30
  match e.extra with
  | some ex => uintSet b ex (30 + N)
  | none => pure b

/-! ## Interleaving model of the decompression cache (`src/ZipEntry.ts`)

`ZipEntry.decompress` is `async`: the synchronous prefix (the cache lookup and the
miss/hit branch) runs atomically, then `await decompress(...)` suspends, and the
continuation (store into the WeakMap, return) runs atomically when the collaborator
completes.  A call on one fixed compressed entry is therefore two atomic steps, and a
set of N concurrent calls is a schedule interleaving their steps.  `invocations`
counts how often the external decompression collaborator is started. -/

/-- Where one `decompress()` call stands: not yet run, suspended at the `await`
after a cache miss, or finished with its result. -/
inductive TaskSt where
  | start : TaskSt
  | inflight : TaskSt
  | done : List Nat → TaskSt
deriving Repr, DecidableEq

/-- Global state: the `inflated_entries` slot for the one backing blob under test,
the number of collaborator invocations so far, and each call's progress. -/
structure DFState where
  cache : Option (List Nat)
  invocations : Nat
  tasks : List TaskSt
deriving Repr, DecidableEq

def setTask (ts : List TaskSt) (i : Nat) (s : TaskSt) : List TaskSt :=
  ts.set i s

/-- Run the next atomic step of call `i` (no-op for a finished or unknown call).
`result` is what the external collaborator returns for this blob. -/
def stepTask (result : List Nat) (s : DFState) (i : Nat) : DFState :=
  match s.tasks[i]? with
  | some .start =>
    match s.cache with
    | some existing => { s with tasks := setTask s.tasks i (.done existing) }
    | none => { s with tasks := setTask s.tasks i .inflight }
  | some .inflight =>
    { cache := some result, invocations := s.invocations + 1,
      tasks := setTask s.tasks i (.done result) }
  | _ => s

/-- Execute a schedule: a list of task indices, each naming whose step runs next. -/
def runSched (result : List Nat) (s : DFState) (sched : List Nat) : DFState :=
  sched.foldl (stepTask result) s

/-- `n` concurrent `get_blob()` calls on the same compressed entry, none started yet,
cache empty. -/
def initState (n : Nat) : DFState :=
  ⟨none, 0, List.replicate n .start⟩

/-- The fully sequential schedule: call `0` runs to completion, then call `1`, ... —
each call's two steps are adjacent. -/
def seqSched (n : Nat) : List Nat :=
  (List.range n).flatMap (fun i => [i, i])

/-! ## Claim-side definitions and concrete inputs -/

/-- The `find_eocdr` scan as the claim words it (a refinement reference, not source
code): candidate positions run from `buffer.length - 22` down to `0`; the result is
the matching candidate closest to the end, and the scan fails (`none`) exactly when
the magic occurs at no candidate position. -/
def find_eocdr_claim (b : List Nat) : Option Nat :=
  (List.range (b.length - 21)).reverse.find? (fun p => u32At b p == HEADER_EOCDR)

/-- What the parse path actually stores for a content-bearing entry: every field is
taken from the Local header found at some central-directory record's
`localPosition` — the filename as key, the data slice
`[dataLocation, dataLocation + local.compressedSize)` as backing bytes, and the
compressed flag as `local.compression == 8`. -/
def Pprop (blob : List Nat) (ne : List Nat × ZipEntryArc) : Prop :=
  ∃ cdpos cd lrec, readCD blob cdpos = Except.ok cd ∧
    readLocal blob cd.localPosition = Except.ok lrec ∧
    ne.1 = lrec.fileName ∧
    ne.2.blob = listSlice blob lrec.dataLocation (lrec.dataLocation + lrec.compressedSize) ∧
    ne.2.compressed = (lrec.compression == 8)

/-- A fixed timestamp for concrete entries. -/
def dummyDate : DateT := ⟨1980, 1, 1, 0, 0, 0⟩

/-- A STORE-compression entry (content `[1, 2]`). -/
def eStore : ZipEntry :=
  { blob := [1, 2], extra := none, comment := none, internal_file_attr := 0,
    external_file_attr := 0, modified := dummyDate, crc := 0, uncompressed_size := 2,
    compression := 0 }

/-- An entry with the unsupported compression code 7. -/
def eSeven : ZipEntry :=
  { blob := [3], extra := none, comment := none, internal_file_attr := 0,
    external_file_attr := 0, modified := dummyDate, crc := 0, uncompressed_size := 1,
    compression := 7 }

/-- A DEFLATE entry (backing bytes `[9, 8]`). -/
def eDeflate : ZipEntry :=
  { blob := [9, 8], extra := none, comment := none, internal_file_attr := 0,
    external_file_attr := 0, modified := dummyDate, crc := 0, uncompressed_size := 3,
    compression := 8 }

/-- The entry used against `generate_local` / `readLocal`: crc 1, two content bytes,
uncompressed size 2, STORE. -/
def e5 : ZipEntry :=
  { blob := [104, 105], extra := none, comment := none, internal_file_attr := 0,
    external_file_attr := 0, modified := dummyDate, crc := 1, uncompressed_size := 2,
    compression := 0 }

/-- An uncompressed two-byte archive member. -/
def entA : ZipEntryArc := ⟨[1, 2], false⟩

/-- A 26-byte buffer whose only EOCDR magic sits at position 21 = length - 5, past the
last position (length - 22 = 4) the claimed scan would probe. -/
def cex8buf : List Nat :=
  [0, 0, 0, 0, 0, 0, 0, 0, 0, 0, 0, 0, 0, 0, 0, 0, 0, 0, 0, 0, 0,
   80, 75, 5, 6, 0]

/-- A well-formed single-file archive whose Local header and central-directory record
disagree: the Local header (at 0) declares compression 8 and compressed size 1, while
the CD record (at 33) declares compression 0 (STORE), compressed size 2, crc 99,
uncompressed size 7, time 1, date 2, internal attr 5, external attr 6.  Data bytes
171, 205 follow the Local header; the EOCDR sits at 80. -/
def cex6buf : List Nat :=
  -- Local header for "a": compression 8, sizes 1, data offset 31
  [80, 75, 3, 4, 20, 0, 0, 0, 8, 0, 0, 0, 0, 0, 0, 0, 0, 0, 1, 0, 0, 0,
   1, 0, 0, 0, 1, 0, 0, 0, 97] ++
  -- two data bytes
  [171, 205] ++
  -- CD record for "a": compression 0, compressed size 2, crc 99, local offset 0
  [80, 75, 1, 2, 20, 0, 20, 0, 0, 0, 0, 0, 1, 0, 2, 0, 99, 0, 0, 0, 2, 0, 0, 0,
   7, 0, 0, 0, 1, 0, 0, 0, 0, 0, 0, 0, 5, 0, 6, 0, 0, 0, 0, 0, 0, 0, 97] ++
  -- EOCDR: 1 entry, CDLength 47, CDOffset 33
  [80, 75, 5, 6, 0, 0, 0, 0, 1, 0, 1, 0, 47, 0, 0, 0, 33, 0, 0, 0, 0, 0]

/-- A three-file archive ("a", "b", "c", one STORE data byte each: 10, 20, 30) whose
EOCDR declares `diskEntries = 5` and whose `totalEntries` bytes are the two
parameters; the central directory really holds 3 records (CDOffset 96, CDLength 141). -/
def cex9 (tlo thi : Nat) : List Nat :=
  -- Local header + 1 data byte for "a" (at 0), "b" (at 32), "c" (at 64)
  [80, 75, 3, 4, 20, 0, 0, 0, 0, 0, 0, 0, 0, 0, 0, 0, 0, 0, 1, 0, 0, 0,
   1, 0, 0, 0, 1, 0, 0, 0, 97, 10] ++
  [80, 75, 3, 4, 20, 0, 0, 0, 0, 0, 0, 0, 0, 0, 0, 0, 0, 0, 1, 0, 0, 0,
   1, 0, 0, 0, 1, 0, 0, 0, 98, 20] ++
  [80, 75, 3, 4, 20, 0, 0, 0, 0, 0, 0, 0, 0, 0, 0, 0, 0, 0, 1, 0, 0, 0,
   1, 0, 0, 0, 1, 0, 0, 0, 99, 30] ++
  -- three 47-byte CD records with local offsets 0, 32, 64
  [80, 75, 1, 2, 20, 0, 20, 0, 0, 0, 0, 0, 0, 0, 0, 0, 0, 0, 0, 0, 1, 0, 0, 0,
   1, 0, 0, 0, 1, 0, 0, 0, 0, 0, 0, 0, 0, 0, 0, 0, 0, 0, 0, 0, 0, 0, 97] ++
  [80, 75, 1, 2, 20, 0, 20, 0, 0, 0, 0, 0, 0, 0, 0, 0, 0, 0, 0, 0, 1, 0, 0, 0,
   1, 0, 0, 0, 1, 0, 0, 0, 0, 0, 0, 0, 0, 0, 0, 0, 0, 0, 32, 0, 0, 0, 98] ++
  [80, 75, 1, 2, 20, 0, 20, 0, 0, 0, 0, 0, 0, 0, 0, 0, 0, 0, 0, 0, 1, 0, 0, 0,
   1, 0, 0, 0, 1, 0, 0, 0, 0, 0, 0, 0, 0, 0, 0, 0, 0, 0, 64, 0, 0, 0, 99] ++
  -- EOCDR: diskEntries 5, totalEntries = tlo + 256 * thi, CDLength 141, CDOffset 96
  [80, 75, 5, 6, 0, 0, 0, 0, 5, 0, tlo, thi, 141, 0, 0, 0, 96, 0, 0, 0, 0, 0]

/-- The archive `fromBlob` actually builds from any `cex9` buffer. -/
def cex9result : List (List Nat × ZipEntryArc) :=
  [([97], ⟨[10], false⟩), ([98], ⟨[20], false⟩), ([99], ⟨[30], false⟩)]

/-! ## Helper lemmas -/

set_option maxRecDepth 100000

theorem exceptBind_ok {ε α β : Type} (a : α) (f : α → Except ε β) :
    (Except.ok a >>= f) = f a := rfl

theorem exceptBind_err {ε α β : Type} (e : ε) (f : α → Except ε β) :
    ((Except.error e : Except ε α) >>= f) = Except.error e := rfl

theorem mem_mapSet {α β : Type} [DecidableEq α] (k : α) (v : β) :
    ∀ (l : List (α × β)) (x : α × β), x ∈ mapSet l k v → x ∈ l ∨ x = (k, v) := by
  intro l
  induction l with
  | nil =>
    intro x hx
    right
    simpa [mapSet] using hx
  | cons kv rest ih =>
    intro x hx
    obtain ⟨k', v'⟩ := kv
    by_cases hk : k' = k
    · simp only [mapSet, if_pos hk, List.mem_cons] at hx
      rcases hx with h | h
      · right; exact h
      · left; exact List.mem_cons_of_mem _ h
    · simp only [mapSet, if_neg hk, List.mem_cons] at hx
      rcases hx with h | h
      · left; exact h ▸ List.mem_cons_self _ _
      · rcases ih x h with h1 | h1
        · left; exact List.mem_cons_of_mem _ h1
        · right; exact h1

theorem fromBlobLoop_mem (blob : List Nat) (offset length : Nat) :
    ∀ (fuel position : Nat) (entries A : List (List Nat × ZipEntryArc)),
      fromBlobLoop blob offset length fuel position entries = .ok A →
      (∀ ne ∈ entries, Pprop blob ne) → ∀ ne ∈ A, Pprop blob ne := by
  intro fuel
  induction fuel with
  | zero =>
    intro position entries A h _
    exact absurd h (by simp [fromBlobLoop])
  | succ fuel ih =>
    intro position entries A h hinv
    rw [fromBlobLoop] at h
    by_cases hpos : position < length
    · rw [if_pos hpos] at h
      cases hS : getUint32 blob (position + offset) with
      | error e => rw [hS] at h; exact absurd h (by simp)
      | ok SIG =>
        simp only [hS] at h
        by_cases hsig : SIG = HEADER_CD
        · rw [if_pos hsig] at h
          cases hCD : readCD blob (position + offset) with
          | error e => rw [hCD] at h; exact absurd h (by simp)
          | ok entry =>
            simp only [hCD] at h
            by_cases hfolder : entry.fileName.getLast? = some 47
            · rw [if_pos hfolder] at h
              exact ih _ _ _ h hinv
            · rw [if_neg hfolder] at h
              cases hL : readLocal blob entry.localPosition with
              | error e => rw [hL] at h; exact absurd h (by simp)
              | ok lrec =>
                simp only [hL] at h
                by_cases h8 : (lrec.compression == 8) = true
                · rw [if_pos h8] at h
                  refine ih _ _ _ h ?_
                  intro ne hne
                  rcases mem_mapSet _ _ _ _ hne with hold | hnew
                  · exact hinv ne hold
                  · refine ⟨position + offset, entry, lrec, hCD, hL, ?_, ?_, ?_⟩
                    · rw [hnew]
                    · rw [hnew]
                    · rw [hnew]; exact h8.symm
                · rw [if_neg h8] at h
                  refine ih _ _ _ h ?_
                  intro ne hne
                  rcases mem_mapSet _ _ _ _ hne with hold | hnew
                  · exact hinv ne hold
                  · refine ⟨position + offset, entry, lrec, hCD, hL, ?_, ?_, ?_⟩
                    · rw [hnew]
                    · rw [hnew]
                    · rw [hnew]
                      exact (Bool.not_eq_true _ ▸ h8 : (lrec.compression == 8) = false).symm
        · rw [if_neg hsig] at h
          exact absurd h (by simp)
    · rw [if_neg hpos] at h
      injection h with h'
      exact h' ▸ hinv

theorem findEOCDRLoop_not_found (b : List Nat) :
    ∀ k, k + 4 ≤ b.length → (∀ q, q < k → u32At b q ≠ HEADER_EOCDR) →
      findEOCDRLoop b k = .error (.error ("No end of central directory record found")) := by
  intro k
  induction k with
  | zero => intro _ _; rfl
  | succ k ih =>
    intro hk hq
    have hin : k + 4 ≤ b.length := by omega
    have hget : getUint32 b k = .ok (u32At b k) := by
      unfold getUint32; rw [if_pos hin]
    simp only [findEOCDRLoop, hget]
    rw [if_neg (hq k (Nat.lt_succ_self k))]
    exact ih hin (fun q hq' => hq q (Nat.lt_succ_of_lt hq'))

theorem findEOCDRLoop_found (b : List Nat) (p : Nat) (hmag : u32At b p = HEADER_EOCDR) :
    ∀ k, k + 4 ≤ b.length → p < k →
      (∀ q, p < q → q < k → u32At b q ≠ HEADER_EOCDR) →
      findEOCDRLoop b k = .ok p := by
  intro k
  induction k with
  | zero => intro _ hp _; exact absurd hp (Nat.not_lt_zero p)
  | succ k ih =>
    intro hk hp hq
    have hin : k + 4 ≤ b.length := by omega
    have hget : getUint32 b k = .ok (u32At b k) := by
      unfold getUint32; rw [if_pos hin]
    simp only [findEOCDRLoop, hget]
    by_cases hpk : p = k
    · subst hpk
      rw [if_pos hmag]
    · have hpk' : p < k := by omega
      rw [if_neg (hq k hpk' (Nat.lt_succ_self k))]
      exact ih hin hpk' (fun q h1 h2 => hq q h1 (Nat.lt_succ_of_lt h2))

theorem runSched_append (r : List Nat) (s : DFState) (l1 l2 : List Nat) :
    runSched r s (l1 ++ l2) = runSched r (runSched r s l1) l2 := by
  simp [runSched, List.foldl_append]

theorem stepTask_start_cached (r : List Nat) (s : DFState) (i : Nat)
    (hc : s.cache = some r) (ht : s.tasks[i]? = some .start) :
    stepTask r s i = { s with tasks := setTask s.tasks i (.done r) } := by
  rw [stepTask]
  simp only [ht, hc]

theorem stepTask_start_fresh (r : List Nat) (s : DFState) (i : Nat)
    (hc : s.cache = none) (ht : s.tasks[i]? = some .start) :
    stepTask r s i = { s with tasks := setTask s.tasks i .inflight } := by
  rw [stepTask]
  simp only [ht, hc]

theorem stepTask_inflight (r : List Nat) (s : DFState) (i : Nat)
    (ht : s.tasks[i]? = some .inflight) :
    stepTask r s i = ⟨some r, s.invocations + 1, setTask s.tasks i (.done r)⟩ := by
  rw [stepTask]
  simp only [ht]

theorem stepTask_done (r : List Nat) (s : DFState) (i : Nat) (x : List Nat)
    (ht : s.tasks[i]? = some (.done x)) :
    stepTask r s i = s := by
  rw [stepTask]
  simp only [ht]

theorem step_pair_cached (r : List Nat) (s : DFState) (i : Nat)
    (hc : s.cache = some r) (ht : s.tasks[i]? = some .start) :
    runSched r s [i, i] = { s with tasks := setTask s.tasks i (.done r) } := by
  have hi : i < s.tasks.length := by
    by_contra hcon
    rw [List.getElem?_eq_none (by omega)] at ht
    cases ht
  have h2 : (setTask s.tasks i (.done r))[i]? = some (.done r) :=
    List.getElem?_set_self (by simpa [setTask] using hi)
  show stepTask r (stepTask r s i) i = _
  rw [stepTask_start_cached r s i hc ht]
  exact stepTask_done r _ i r h2

theorem step_pair_fresh (r : List Nat) (s : DFState) (i : Nat)
    (hc : s.cache = none) (ht : s.tasks[i]? = some .start) :
    runSched r s [i, i] =
      ⟨some r, s.invocations + 1, setTask s.tasks i (.done r)⟩ := by
  have hi : i < s.tasks.length := by
    by_contra hcon
    rw [List.getElem?_eq_none (by omega)] at ht
    cases ht
  have h2 : (setTask s.tasks i .inflight)[i]? = some .inflight :=
    List.getElem?_set_self (by simpa [setTask] using hi)
  show stepTask r (stepTask r s i) i = _
  rw [stepTask_start_fresh r s i hc ht]
  rw [stepTask_inflight r _ i h2]
  simp only [setTask, List.set_set]

theorem seq_run (r : List Nat) :
    ∀ (k j : Nat), 0 < j →
      runSched r ⟨some r, 1, List.replicate j (.done r) ++ List.replicate k .start⟩
          ((List.range' j k).flatMap (fun i => [i, i])) =
        ⟨some r, 1, List.replicate (j + k) (.done r)⟩ := by
  intro k
  induction k with
  | zero =>
    intro j hj
    simp [runSched]
  | succ k ih =>
    intro j hj
    have hr : List.range' j (k + 1) = j :: List.range' (j + 1) k := rfl
    rw [hr, List.flatMap_cons, runSched_append]
    have ht : (List.replicate j (TaskSt.done r) ++ List.replicate (k + 1) TaskSt.start)[j]? =
        some .start := by
      rw [List.getElem?_append_right (by simp)]
      simp [List.getElem?_replicate]
    rw [step_pair_cached r _ j rfl ht]
    have hset : setTask (List.replicate j (TaskSt.done r) ++ List.replicate (k + 1) TaskSt.start)
        j (.done r) = List.replicate (j + 1) (TaskSt.done r) ++ List.replicate k TaskSt.start := by
      rw [setTask, List.replicate_succ (n := k), List.set_append]
      simp [List.replicate_succ' (n := j)]
    rw [hset]
    have := ih (j + 1) (by omega)
    rw [show j + 1 + k = j + (k + 1) by omega] at this
    exact this

theorem seq_total (r : List Nat) (n : Nat) (hn : 0 < n) :
    runSched r (initState n) (seqSched n) = ⟨some r, 1, List.replicate n (.done r)⟩ := by
  obtain ⟨m, rfl⟩ : ∃ m, n = m + 1 := ⟨n - 1, by omega⟩
  have hsched : seqSched (m + 1) = [0, 0] ++ (List.range' 1 m).flatMap (fun i => [i, i]) := by
    rw [seqSched, List.range_eq_range']
    rfl
  rw [hsched, runSched_append]
  have ht : (initState (m + 1)).tasks[0]? = some .start := by
    simp [initState, List.getElem?_replicate]
  rw [step_pair_fresh r _ 0 rfl ht]
  have hset : setTask (initState (m + 1)).tasks 0 (.done r) =
      List.replicate 1 (TaskSt.done r) ++ List.replicate m TaskSt.start := by
    simp [initState, setTask, List.replicate_succ (n := m)]
  have h1 : (⟨some r, (initState (m + 1)).invocations + 1,
      setTask (initState (m + 1)).tasks 0 (.done r)⟩ : DFState) =
      ⟨some r, 1, List.replicate 1 (TaskSt.done r) ++ List.replicate m TaskSt.start⟩ := by
    rw [hset]
    rfl
  rw [h1]
  have := seq_run r m 1 (by omega)
  rw [show 1 + m = m + 1 by omega] at this
  exact this

/-! ## Claim theorems -/

/-- C1: the round-trip property fails because serialization itself always throws:
`toBlob` on the empty archive reaches `generateEOCDR`, whose first statement reads the
undeclared `position` (ReferenceError); on an archive with a short-named entry,
`generateCentralHeader` overruns its under-allocated 30+N-byte buffer (RangeError);
with a 12-byte name every write fits and the undeclared `localPosition` is reached
(ReferenceError).  No archive can be serialized, so `parse(serialize(...))` can never
yield the original entries. -/
theorem c1_serialize_always_fails :
    toBlob [] = .error (.referenceError ("position")) ∧
    toBlob [([97], ⟨[104, 105], false⟩)] = .error .rangeError ∧
    toBlob [([97, 98, 99, 100, 101, 102, 103, 104, 105, 106, 107, 108], ⟨[1], false⟩)] =
      .error (.referenceError ("localPosition")) := by
  decide

/-- C2: `get_blob` is inverted relative to the claim.  On a STORE entry
(compression 0) the `assert(this.compression !== 0, ...)` fails and the call throws
"Incompatible compression type"; on the unsupported code 7 the assertion passes and
the raw backing bytes are returned without error; only the DEFLATE (8) path behaves
as claimed, decompressing through the cache (and returning the cached bytes when
present). -/
theorem c2_get_blob_inverted :
    ZipEntry.get_blob List.reverse [] eStore =
      .error (.error ("Incompatible compression type")) ∧
    ZipEntry.get_blob List.reverse [] eSeven = .ok ([3], []) ∧
    ZipEntry.get_blob List.reverse [] eDeflate = .ok ([8, 9], [([9, 8], [8, 9])]) ∧
    ZipEntry.get_blob List.reverse [([9, 8], [99])] eDeflate = .ok ([99], [([9, 8], [99])]) ∧
    eStore.compression = 0 ∧ eSeven.compression = 7 ∧ eDeflate.compression = 8 := by
  refine ⟨?_, ?_, ?_, ?_, ?_, ?_, ?_⟩ <;> decide

/-- C3: no central-directory record produced by serialization can store the entry's
local header offset: `toBlob` never passes the tracked offset to
`generateCentralHeader` (a `TODO` in the source), and the generator's own write of a
local position reads the undeclared `localPosition` — it throws a ReferenceError for
names of 12 bytes or more and a RangeError (under-allocated buffer) for shorter
names, so it never returns header bytes at all. -/
theorem c3_central_header_offset_missing :
    generateCentralHeader false [97] = .error .rangeError ∧
    generateCentralHeader false [97, 98, 99, 100, 101, 102, 103, 104, 105, 106, 107, 108] =
      .error (.referenceError ("localPosition")) ∧
    generateCentralHeader true [97, 98, 99, 100, 101, 102, 103, 104, 105, 106, 107, 108] =
      .error (.referenceError ("localPosition")) := by
  decide

/-- C4: the serialized stream never ends with an EOCDR record: `generateEOCDR` is a
copy of the EOCDR *reader* whose first statement reads the undeclared `position`, so
it throws on every call (here with the CDOffset/record-count arguments of the empty
and of a three-record archive), and `toBlob` — which additionally never pushes the
generated EOCDR into `parts` — fails the same way even for the empty archive. -/
theorem c4_eocdr_never_emitted :
    generateEOCDR 0 0 = .error (.referenceError ("position")) ∧
    generateEOCDR 141 3 = .error (.referenceError ("position")) ∧
    toBlob [] = .error (.referenceError ("position")) := by
  decide

/-- C5: `generate_local` and `readLocal` are not inverses: the encoder writes crc /
compressed size / uncompressed size at offsets 16 / 20 / 24 although its own layout
comment and the decoder place them at 14 / 18 / 22.  Decoding the encoding of the
entry `e5` (crc 1, two content bytes, uncompressed size 2, name "a") recovers
crc 65536 and sizes 131072 instead; compression, name-length bookkeeping, filename,
extra field and the data offset 30 + N + M do survive. -/
theorem c5_local_header_offsets_shifted :
    (ZipEntry.generate_local e5 [97]).bind (fun L => readLocal L 0) =
      .ok { signature := 67324752, version := 20, flag := 0, compression := 0, time := 0,
            date := 33, crc := 65536, compressedSize := 131072, uncompressedSize := 131072,
            nameLength := 1, fieldLength := 0, fileName := [97], field := [],
            dataLocation := 31 } ∧
    e5.crc = 1 ∧ e5.blob.length = 2 ∧ e5.uncompressed_size = 2 ∧
    (65536 : Nat) ≠ 1 ∧ (131072 : Nat) ≠ 2 := by
  decide

/-- C6 counterexample: on `cex6buf` the Local header says compression 8 / size 1
while the CD record at 33 says compression 0 (STORE) / size 2 / crc 99 — and the
parsed entry follows the **Local** header (compressed flag `true`, one backing byte),
not the central directory as the claim states. -/
theorem c6_cd_fields_not_authoritative :
    fromBlob cex6buf = .ok [([97], ⟨[171], true⟩)] ∧
    (readCD cex6buf 33).map
      (fun c => (c.compression, c.compressedSize, c.crc, c.uncompressedSize)) =
      .ok (0, 2, 99, 7) ∧
    (readLocal cex6buf 0).map (fun l => (l.compression, l.compressedSize)) = .ok (8, 1) ∧
    ¬ ((true, 1) = (((0 : Nat) == 8 : Bool), (2 : Nat))) := by
  decide

/-- C6 (amended): for every buffer that parses successfully, each stored entry takes
*all* of its data from the Local header located through some CD record's
`localPosition`: its key is the Local filename, its backing bytes are the slice
`[dataLocation, dataLocation + local.compressedSize)`, and its compressed flag is
`local.compression == 8`.  The CD record only supplies the Local header's position
(and the directory-name check); none of its compression/crc/size/timestamp/attribute
fields are stored. -/
theorem c6_entry_fields_from_local (blob : List Nat) (A : List (List Nat × ZipEntryArc))
    (h : fromBlob blob = .ok A) : ∀ ne ∈ A, Pprop blob ne := by
  simp only [fromBlob] at h
  cases hF : findEOCDR blob with
  | error e => simp only [hF, exceptBind_err] at h; exact absurd h (by simp)
  | ok pos =>
    simp only [hF, exceptBind_ok] at h
    cases hE : readEOCDR blob pos with
    | error e => simp only [hE, exceptBind_err] at h; exact absurd h (by simp)
    | ok eocdr =>
      simp only [hE, exceptBind_ok] at h
      exact fromBlobLoop_mem blob eocdr.CDOffset eocdr.CDLength _ _ _ _ h
        (fun ne hne => absurd hne (List.not_mem_nil ne))

/-- Witness for the amended C6 theorem at the concrete buffer `cex6buf`. -/
theorem c6_entry_fields_from_local_witness :
    Pprop cex6buf ([97], ⟨[171], true⟩) :=
  c6_entry_fields_from_local cex6buf [([97], ⟨[171], true⟩)] (by decide)
    ([97], ⟨[171], true⟩) (by decide)

/-- C7 counterexample: two concurrent `get_blob()` calls on the same compressed entry
under the interleaving "both check the cache, then both resume" invoke the external
decompression collaborator twice — the check-then-act around the `await` is not
single-flight (though both callers do observe the same result). -/
theorem c7_concurrent_double_invocation :
    (runSched [7] (initState 2) [0, 1, 0, 1]).invocations = 2 ∧
    ¬ (runSched [7] (initState 2) [0, 1, 0, 1]).invocations ≤ 1 ∧
    (runSched [7] (initState 2) [0, 1, 0, 1]).tasks = [.done [7], .done [7]] := by
  decide

/-- C7 (amended): the memoization is single-flight only for non-overlapping calls —
when N calls on the same compressed entry run sequentially (each completing before
the next starts), the collaborator is invoked `min N 1` times, i.e. exactly once for
N ≥ 1, and every caller observes the same decompressed result; arbitrary
interleavings can instead invoke it once per concurrently-missing caller. -/
theorem c7_sequential_single_flight (n : Nat) (r : List Nat) :
    (runSched r (initState n) (seqSched n)).invocations = min n 1 ∧
    ∀ i, i < n → (runSched r (initState n) (seqSched n)).tasks[i]? = some (.done r) := by
  cases n with
  | zero =>
    refine ⟨rfl, ?_⟩
    intro i hi
    omega
  | succ m =>
    rw [seq_total r (m + 1) (by omega)]
    refine ⟨by simp, ?_⟩
    intro i hi
    simp [List.getElem?_replicate, hi]

/-- Witness for the amended C7 theorem: three sequential calls, one invocation,
first caller sees the result. -/
theorem c7_sequential_single_flight_witness :
    (runSched [7] (initState 3) (seqSched 3)).invocations = min 3 1 ∧
    (runSched [7] (initState 3) (seqSched 3)).tasks[0]? = some (.done [7]) :=
  ⟨(c7_sequential_single_flight 3 [7]).1,
   (c7_sequential_single_flight 3 [7]).2 0 (by decide)⟩

/-- C8 counterexample: `findEOCDR` does not scan from `length - 22`: on a 26-byte
buffer whose only magic sits at 21 = length - 5, the claimed scan (candidates
`length - 22 = 4` down to `0`) finds nothing — so the claim requires the
no-EOCDR failure — but the code returns position 21. -/
theorem c8_scan_starts_at_length_sub_5 :
    findEOCDR cex8buf = .ok 21 ∧
    find_eocdr_claim cex8buf = none ∧
    cex8buf.length - 22 = 4 := by
  decide

/-- C8 (amended): `findEOCDR` probes positions from `length - 5` (not `length - 22`)
down to `0`: buffers shorter than 4 bytes throw a RangeError (negative-index probe);
otherwise the scan fails with the no-EOCDR error exactly when the magic is at no
position `p` with `p + 5 ≤ length`, and returns the matching position closest to the
end of the buffer. -/
theorem c8_findEOCDR_characterization :
    (∀ b : List Nat, b.length < 4 → findEOCDR b = .error .rangeError) ∧
    (∀ b : List Nat, 4 ≤ b.length →
      (∀ q, q + 5 ≤ b.length → u32At b q ≠ HEADER_EOCDR) →
      findEOCDR b = .error (.error ("No end of central directory record found"))) ∧
    (∀ (b : List Nat) (p : Nat), p + 5 ≤ b.length → u32At b p = HEADER_EOCDR →
      (∀ q, p < q → q + 5 ≤ b.length → u32At b q ≠ HEADER_EOCDR) →
      findEOCDR b = .ok p) := by
  refine ⟨?_, ?_, ?_⟩
  · intro b hb
    rw [findEOCDR, if_pos hb]
  · intro b hb hq
    rw [findEOCDR, if_neg (by omega)]
    exact findEOCDRLoop_not_found b (b.length - 4) (by omega) (fun q hq' => hq q (by omega))
  · intro b p hp hmag hq
    rw [findEOCDR, if_neg (by omega)]
    exact findEOCDRLoop_found b p hmag (b.length - 4) (by omega) (by omega)
      (fun q h1 h2 => hq q h1 (by omega))

/-- Witness for the amended C8 theorem: the magic at 21 in the 26-byte buffer is
found, and the empty buffer throws a RangeError. -/
theorem c8_findEOCDR_characterization_witness :
    findEOCDR cex8buf = .ok 21 ∧ findEOCDR [] = .error .rangeError := by
  constructor
  · apply c8_findEOCDR_characterization.2.2 cex8buf 21 (by decide) (by decide)
    intro q h1 h2
    have hlen : cex8buf.length = 26 := by decide
    rw [hlen] at h2
    exact absurd h1 (by omega)
  · exact c8_findEOCDR_characterization.1 [] (by decide)

/-- C9 counterexample: a buffer whose EOCDR declares `totalEntries = 5` while its
central directory region holds exactly 3 decodable records parses *successfully*
into the 3-entry archive — `fromBlob` raises no error for the mismatch. -/
theorem c9_total_entries_mismatch_parses :
    fromBlob (cex9 5 0) = .ok cex9result ∧
    (readEOCDR (cex9 5 0) 237).map (fun e => e.totalEntries) = .ok 5 ∧
    findEOCDR (cex9 5 0) = .ok 237 ∧
    cex9result.length = 3 := by
  decide

/-- C9 (amended): the parse path never consults `totalEntries`: it decodes exactly
the records that fit in `[CDOffset, CDOffset + CDLength)` and returns them.  The same
three-record buffer parses into the same 3-entry archive whether its EOCDR declares
0, 5 or 65535 total entries. -/
theorem c9_total_entries_ignored :
    fromBlob (cex9 5 0) = .ok cex9result ∧
    fromBlob (cex9 0 0) = .ok cex9result ∧
    fromBlob (cex9 255 255) = .ok cex9result ∧
    (readEOCDR (cex9 0 0) 237).map (fun e => e.totalEntries) = .ok 0 ∧
    (readEOCDR (cex9 255 255) 237).map (fun e => e.totalEntries) = .ok 65535 ∧
    cex9result.length = 3 := by
  decide

/-- C10: `get` behaves as claimed (the stored entry when present, `none` — not an
error — when absent), but `has` does not: its body only calls the `verifyPath` stub
and returns `undefined` (`none`) for every name, so it never returns `true`, even for
a present key. -/
theorem c10_has_returns_undefined :
    ZipArchive.has [([97], entA)] [97] = none ∧
    (∀ bl : Bool, ZipArchive.has [([97], entA)] [97] ≠ some bl) ∧
    ZipArchive.get [([97], entA)] [97] = some entA ∧
    ZipArchive.get [([97], entA)] [98] = none ∧
    mapGet [([97], entA)] [97] = some entA := by
  decide
